import Mathlib

/-!
Verification development for the single-user RDS MySQL credential rotation
Lambda (`secretsmanagerLambda.js`).

The rotation controller (handler, createSecret, setSecret, testSecret,
getConnection, finishSecret) is embedded faithfully from the source file.
The two external collaborators — the SecretStore (AWS Secrets Manager) and
the CredentialTarget (the RDS MySQL cluster) — are not part of the
repository source; their operations are modelled from the specification
(SecretStore / CredentialTarget capabilities, staged-version data model).

State is passed explicitly: each operation takes a `RotState` (store state,
target state, operation log) and returns the new state together with an
`Except` result; a JavaScript `throw` that a caller does not catch
corresponds to an `Except.error` result that the embedded caller
propagates, while a `try/catch` that only logs corresponds to discarding
the `Except.error` and continuing.
-/

/-- Credential material of one secret version: the JSON payload
`{host, username, password, port}` stored in `SecretString`.
(JSON encoding/decoding is the wire format, out of scope; the payload is
kept structured.) -/
structure Payload where
  host : String
  username : String
  password : String
  port : Nat
deriving DecidableEq

/-- Modelled from the spec: the SecretStore is a versioned key-value store
for credential material with staging labels.  `versions` maps a version id
(the request token) to its immutable payload; `stages` maps a version id to
the list of staging labels currently attached to it
(`VersionIdsToStages` in the AWS response shape the code reads). -/
structure SecretStore where
  versions : List (String × Payload)
  stages : List (String × List String)
deriving DecidableEq

/-- Modelled from the spec: the CredentialTarget (the MySQL database whose
credential is rotated).  `activePassword` is the password the target
currently accepts for `username`; `rdsAvailable` models transient
availability of the administrative password-change API. -/
structure CredentialTarget where
  host : String
  username : String
  port : Nat
  activePassword : String
  rdsAvailable : Bool
deriving DecidableEq

/-- One externally visible SecretStore / CredentialTarget operation, as
issued by the controller (used to reason about which operations a run
performs). -/
inductive Op where
  | getCurrent
  | getVersion (v : String)
  | describe
  | randomPassword
  | putPending (v : String) (p : Payload)
  | moveStage (moveTo : String) (removeFrom : Option String)
  | rdsModify (pw : String)
  | connect (host user pw : String) (port : Nat)
deriving DecidableEq

/-- Errors surfaced by the modelled external collaborators. -/
inductive RotErr where
  | resourceNotFound
  | invalidParameter
  | targetUnavailable
  | authFailed
deriving DecidableEq

/-- The full state a rotation step acts on: the secret store, the
credential target, and the log of external operations performed so far. -/
structure RotState where
  store : SecretStore
  target : CredentialTarget
  ops : List Op
deriving DecidableEq

def logOp (s : RotState) (o : Op) : RotState :=
  { s with ops := s.ops ++ [o] }

/-- The version ids holding a given staging label. -/
def holders (stages : List (String × List String)) (label : String) : List String :=
  (stages.filter (fun kv => decide (label ∈ kv.2))).map Prod.fst

/-- The version id currently holding AWSCURRENT, if any. -/
def currentVersionId (st : SecretStore) : Option String :=
  (st.stages.find? (fun kv => decide ("AWSCURRENT" ∈ kv.2))).map Prod.fst

/-- Modelled from the spec: `getCurrentVersion(secretId)` — `getSecretValue`
without a version id returns the AWSCURRENT version payload, or fails when
there is none. -/
def getSecretValueCurrent (s : RotState) : RotState × Except RotErr Payload :=
  let s1 := logOp s Op.getCurrent
  match currentVersionId s1.store with
  | none => (s1, Except.error RotErr.resourceNotFound)
  | some v =>
    match s1.store.versions.lookup v with
    | none => (s1, Except.error RotErr.resourceNotFound)
    | some p => (s1, Except.ok p)

/-- Modelled from the spec: `getVersion(secretId, versionToken) ->
SecretVersion | NotFound` — `getSecretValue` with `VersionId`. -/
def getSecretValueByVersion (s : RotState) (v : String) : RotState × Except RotErr Payload :=
  let s1 := logOp s (Op.getVersion v)
  match s1.store.versions.lookup v with
  | none => (s1, Except.error RotErr.resourceNotFound)
  | some p => (s1, Except.ok p)

/-- Modelled from the spec: `listVersionLabels(secretId)` — `describeSecret`
returns the `VersionIdsToStages` mapping. -/
def describeSecret (s : RotState) : RotState × List (String × List String) :=
  let s1 := logOp s Op.describe
  (s1, s1.store.stages)

/-- Modelled from the spec: the store-side random password generator.  The
generated password is an input from the environment, threaded in as `rand`. -/
def getRandomPassword (s : RotState) (rand : String) : RotState × String :=
  (logOp s Op.randomPassword, rand)

def clearPending (kv : String × List String) : String × List String :=
  (kv.1, kv.2.filter (fun l => !(l == "AWSPENDING")))

/-- Modelled from the spec: `putVersion(secretId, versionToken, payload,
label=PENDING)` — `putSecretValue` with `VersionStages: [AWSPENDING]`
creates a new version holding the (exclusive) AWSPENDING label, detaching
AWSPENDING from any other version; re-putting an existing token with the
same payload is an idempotent no-op, with a different payload an error. -/
def putSecretValuePending (s : RotState) (token : String) (p : Payload) : RotState × Except RotErr Unit :=
  let s1 := logOp s (Op.putPending token p)
  match s1.store.versions.lookup token with
  | some q =>
    if q = p then (s1, Except.ok ()) else (s1, Except.error RotErr.invalidParameter)
  | none =>
    ({ s1 with store :=
        { versions := s1.store.versions ++ [(token, p)],
          stages := s1.store.stages.map clearPending ++ [(token, ["AWSPENDING"])] } },
     Except.ok ())

/-- New label list of one version after AWSCURRENT is moved to `m`,
removing it from `f`: AWSCURRENT is detached everywhere and attached to
`m`, AWSPREVIOUS is detached everywhere and attached to `f`, and the
AWSPENDING label on `m` is replaced by its promotion. -/
def restage (m f : String) (kv : String × List String) : String × List String :=
  (kv.1,
    (kv.2.filter (fun l =>
        !(l == "AWSCURRENT") && !(l == "AWSPREVIOUS") && !((kv.1 == m) && (l == "AWSPENDING"))))
      ++ (if kv.1 = m then ["AWSCURRENT"] else [])
      ++ (if kv.1 = f then ["AWSPREVIOUS"] else []))

/-- New label list of one version when AWSCURRENT is attached to `m` with
no version to remove it from. -/
def restageNone (m : String) (kv : String × List String) : String × List String :=
  (kv.1,
    (kv.2.filter (fun l => !(l == "AWSCURRENT") && !((kv.1 == m) && (l == "AWSPENDING"))))
      ++ (if kv.1 = m then ["AWSCURRENT"] else []))

/-- Modelled from the spec: `moveLabel(secretId, CURRENT, fromVersion,
toVersion)` — `updateSecretVersionStage` moving AWSCURRENT.  The target
version must exist; with `RemoveFromVersionId` given, that version must
currently hold AWSCURRENT, and the move atomically attaches AWSCURRENT to
`moveTo`, moves AWSPREVIOUS onto the demoted version, and clears
AWSPENDING from the promoted version; without `RemoveFromVersionId` the
call is rejected while some version still holds AWSCURRENT. -/
def updateSecretVersionStageCurrent (s : RotState) (moveTo : String) (removeFrom : Option String) : RotState × Except RotErr Unit :=
  let s1 := logOp s (Op.moveStage moveTo removeFrom)
  if (s1.store.versions.lookup moveTo).isNone then (s1, Except.error RotErr.resourceNotFound)
  else
    match removeFrom with
    | some f =>
      if "AWSCURRENT" ∈ (s1.store.stages.lookup f).getD [] then
        ({ s1 with store := { s1.store with stages := s1.store.stages.map (restage moveTo f) } },
         Except.ok ())
      else (s1, Except.error RotErr.invalidParameter)
    | none =>
      if holders s1.store.stages "AWSCURRENT" = [] then
        ({ s1 with store := { s1.store with stages := s1.store.stages.map (restageNone moveTo) } },
         Except.ok ())
      else (s1, Except.error RotErr.invalidParameter)

/-- Whether a connection attempt with the given coordinates authenticates
against the target. -/
def authOk (t : CredentialTarget) (host user pw : String) (port : Nat) : Bool :=
  host == t.host && user == t.username && pw == t.activePassword && port == t.port

/-- Modelled from the spec: `authenticate(host, username, password, port,
timeout)` — a plain connection attempt (`mysql.createConnection`), no
mutation of the target. -/
def connectAttempt (s : RotState) (host user pw : String) (port : Nat) : RotState × Except RotErr Unit :=
  let s1 := logOp s (Op.connect host user pw port)
  if authOk s1.target host user pw port then (s1, Except.ok ())
  else (s1, Except.error RotErr.authFailed)

/-- Modelled from the spec: `applyNewPassword(target, newPassword)` — the
administrative cluster-level password change (`rds.modifyDBCluster`).
Fails when the administrative API is unavailable, otherwise changes the
password the target accepts. -/
def modifyDBClusterPassword (s : RotState) (pw : String) : RotState × Except RotErr Unit :=
  let s1 := logOp s (Op.rdsModify pw)
  if s1.target.rdsAvailable then
    ({ s1 with target := { s1.target with activePassword := pw } }, Except.ok ())
  else (s1, Except.error RotErr.targetUnavailable)

/-- `createSecret` (source lines 60-105): read the AWSCURRENT payload
(uncaught failure propagates), describe the secret, then try to read the
version for `token`; on success fall through (idempotent no-op), on failure
generate a random password, put the current payload with only the password
replaced as a new AWSPENDING version, swallowing any put failure. -/
def createSecret (s : RotState) (token : String) (rand : String) : RotState × Except RotErr Unit :=
  let (s1, rcur) := getSecretValueCurrent s
  match rcur with
  | Except.error e => (s1, Except.error e)
  | Except.ok secretStringObject =>
    let (s2, _) := describeSecret s1
    let (s3, rtok) := getSecretValueByVersion s2 token
    match rtok with
    | Except.ok _ => (s3, Except.ok ())
    | Except.error _ =>
      let (s4, randomPassword) := getRandomPassword s3 rand
      let newSecretString := { secretStringObject with password := randomPassword }
      let (s5, _) := putSecretValuePending s4 token newSecretString
      (s5, Except.ok ())

/-- `setSecret` (source lines 112-151): read the AWSPENDING payload for
`token` (uncaught failure propagates), apply its password to the RDS
cluster inside a try/catch that only logs, then attempt a connection with
the hard-coded cluster host/user, again swallowing failure. -/
def setSecret (s : RotState) (token : String) : RotState × Except RotErr Unit :=
  let (s1, rtok) := getSecretValueByVersion s token
  match rtok with
  | Except.error e => (s1, Except.error e)
  | Except.ok secretStringObject =>
    let (s2, _) := modifyDBClusterPassword s1 secretStringObject.password
    let (s3, _) := connectAttempt s2
      "phat-cluster.cluster-cbimfz1gncny.us-east-1.rds.amazonaws.com"
      "phat1234" secretStringObject.password 3306
    (s3, Except.ok ())

/-- `getConnection` (source lines 158-173): connect with the payload
coordinates, returning `none` instead of raising on failure. -/
def getConnection (s : RotState) (secretStingObject : Payload) : RotState × Option Unit :=
  let (s1, r) := connectAttempt s secretStingObject.host secretStingObject.username
    secretStingObject.password secretStingObject.port
  match r with
  | Except.ok _ => (s1, some ())
  | Except.error _ => (s1, none)

/-- `testSecret` (source lines 180-194): read the AWSPENDING payload for
`token` and attempt a connection via `getConnection`; the whole body is in
a try/catch that only logs, and `getConnection` never raises, so every
outcome returns normally. -/
def testSecret (s : RotState) (token : String) : RotState × Except RotErr Unit :=
  let (s1, rtok) := getSecretValueByVersion s token
  match rtok with
  | Except.error _ => (s1, Except.ok ())
  | Except.ok secretStringObject =>
    let (s2, _) := getConnection s1 secretStringObject
    (s2, Except.ok ())

/-- The scan of `VersionIdsToStages` in `finishSecret` (source lines
208-213): the last version id whose FIRST staging label is AWSCURRENT
(`value[0] === AWSCURRENT`), if any. -/
def findCurrentVersion (stages : List (String × List String)) : Option String :=
  stages.foldl (fun acc kv => if kv.2.headD "" = "AWSCURRENT" then some kv.1 else acc) none

/-- `finishSecret` (source lines 201-226): describe the secret, scan for
the version whose first stage is AWSCURRENT, and move AWSCURRENT from it to
`token` (uncaught failure propagates), then describe again. -/
def finishSecret (s : RotState) (token : String) : RotState × Except RotErr Unit :=
  let (s1, allVersion) := describeSecret s
  let curretVersion := findCurrentVersion allVersion
  let (s2, r) := updateSecretVersionStageCurrent s1 token curretVersion
  match r with
  | Except.error e => (s2, Except.error e)
  | Except.ok _ =>
    let (s3, _) := describeSecret s2
    (s3, Except.ok ())

/-- A rotation request at the system boundary. -/
structure Event where
  SecretId : String
  ClientRequestToken : String
  Step : String
deriving DecidableEq

/-- `handler` (source lines 18-52): dispatch on `event.Step`; unknown steps
fall into the empty `default` branch. -/
def handler (s : RotState) (event : Event) (rand : String) : RotState × Except RotErr Unit :=
  if event.Step = "createSecret" then createSecret s event.ClientRequestToken rand
  else if event.Step = "setSecret" then setSecret s event.ClientRequestToken
  else if event.Step = "testSecret" then testSecret s event.ClientRequestToken
  else if event.Step = "finishSecret" then finishSecret s event.ClientRequestToken
  else (s, Except.ok ())

/-- Store well-formedness: version ids are distinct and the staging map
lists exactly the existing versions. -/
def SecretStore.WF (st : SecretStore) : Prop :=
  (st.versions.map Prod.fst).Nodup ∧ st.stages.map Prod.fst = st.versions.map Prod.fst

instance (st : SecretStore) : Decidable st.WF := by
  unfold SecretStore.WF; infer_instance

/-- The staged-version invariant of the spec data model: a version holds
zero or one staging labels. -/
def OneLabelInv (st : SecretStore) : Prop :=
  ∀ kv ∈ st.stages, kv.2.length ≤ 1

instance (st : SecretStore) : Decidable (OneLabelInv st) := by
  unfold OneLabelInv; infer_instance

/-- The store states observable during one `finishSecret` run: the store is
read before the single label-move mutation and read again after it, so the
observable states are the initial store and the store after the move. -/
def finishObservableStores (s : RotState) (token : String) : List SecretStore :=
  [s.store, (finishSecret s token).1.store]

deriving instance DecidableEq for Except

/-! Concrete states used as witnesses and counterexamples. -/

def pCur : Payload := { host := "db.example.com", username := "app", password := "oldpw", port := 3306 }

def pPend : Payload := { host := "db.example.com", username := "app", password := "newpw", port := 3306 }

def tgt0 : CredentialTarget :=
  { host := "db.example.com", username := "app", port := 3306, activePassword := "oldpw", rdsAvailable := true }

/-- A store mid-rotation: version v1 is AWSCURRENT, version t2 (payload
`pPend`) is AWSPENDING. -/
def stA : SecretStore :=
  { versions := [("v1", pCur), ("t2", pPend)],
    stages := [("v1", ["AWSCURRENT"]), ("t2", ["AWSPENDING"])] }

def sA : RotState := { store := stA, target := tgt0, ops := [] }

/-- A store where the token version t2 exists but holds no staging label. -/
def stC4 : SecretStore :=
  { versions := [("v1", pCur), ("t2", pPend)],
    stages := [("v1", ["AWSCURRENT"]), ("t2", [])] }

def sC4 : RotState := { store := stC4, target := tgt0, ops := [] }

/-- A store where a PENDING version already exists for token t1. -/
def stC5 : SecretStore :=
  { versions := [("v1", pCur), ("t1", pPend)],
    stages := [("v1", ["AWSCURRENT"]), ("t1", ["AWSPENDING"])] }

def sC5 : RotState := { store := stC5, target := tgt0, ops := [] }

/-- A target whose administrative password-change API is unavailable. -/
def tgtDown : CredentialTarget := { tgt0 with rdsAvailable := false }

def sC6 : RotState := { store := stA, target := tgtDown, ops := [] }

/-- A store with only the CURRENT version v1. -/
def stC3 : SecretStore := { versions := [("v1", pCur)], stages := [("v1", ["AWSCURRENT"])] }

def sC3 : RotState := { store := stC3, target := tgt0, ops := [] }

/-- `testSecret` invoked repeatedly: the state after `n` invocations with
the same token. -/
def testSecretIter (s : RotState) (token : String) : Nat → RotState
  | 0 => s
  | n + 1 => (testSecret (testSecretIter s token n) token).1

/-- A request with an unknown step value. -/
def evX : Event := { SecretId := "arn:x", ClientRequestToken := "t9", Step := "rotateSecret" }

def evY1 : Event := { SecretId := "arn:secret-1", ClientRequestToken := "t2", Step := "testSecret" }

def evY2 : Event := { SecretId := "arn:secret-2", ClientRequestToken := "t2", Step := "testSecret" }

/-- C1: in the state `sA` the AWSPENDING credential `pPend` does NOT
authenticate against the target (its password is not the target's active
password), yet `testSecret` returns normally with no error: the
authentication failure is swallowed (caught and only logged) instead of
being surfaced as a ValidationError, contradicting the claim. -/
theorem testSecret_swallows_auth_failure :
    authOk tgt0 pPend.host pPend.username pPend.password pPend.port = false ∧
    (testSecret sA "t2").2 = Except.ok () ∧
    (testSecret sA "t2").1.store = sA.store ∧
    (testSecret sA "t2").1.target = sA.target := by decide

/-- C4: in the state `sC4` the version for the request token t2 exists but
does not hold the PENDING label, yet `finishSecret` performs no
precondition check: it attempts and completes the promotion, changing the
label assignment (t2 becomes CURRENT, v1 becomes PREVIOUS) and returning
success instead of failing with a StateError, contradicting the claim. -/
theorem finishSecret_missing_precondition_check :
    "AWSPENDING" ∉ (stC4.stages.lookup "t2").getD [] ∧
    holders stC4.stages "AWSCURRENT" = ["v1"] ∧
    (finishSecret sC4 "t2").2 = Except.ok () ∧
    (finishSecret sC4 "t2").1.store.stages = [("v1", ["AWSPREVIOUS"]), ("t2", ["AWSCURRENT"])] := by decide

/-- C5: in the state `sC5` a PENDING version already exists for the
different token t1, yet `createSecret` invoked with token t2 is not
rejected: it writes a new version t2 and moves the AWSPENDING label onto
it, silently replacing the in-flight PENDING version, contradicting the
claim. -/
theorem createSecret_overwrites_foreign_pending :
    holders stC5.stages "AWSPENDING" = ["t1"] ∧
    (createSecret sC5 "t2" "r2pw").2 = Except.ok () ∧
    holders (createSecret sC5 "t2" "r2pw").1.store.stages "AWSPENDING" = ["t2"] ∧
    (createSecret sC5 "t2" "r2pw").1.store.versions.lookup "t2" = some { pCur with password := "r2pw" } := by decide

/-- C6: in the state `sC6` the administrative password change fails (the
API is unavailable), so the target keeps its old password and never learns
the PENDING one, yet `setSecret` catches the failure, only logs it, and
completes as if successful instead of reporting a retriable error,
contradicting the claim. -/
theorem setSecret_swallows_apply_failure :
    tgtDown.rdsAvailable = false ∧
    (setSecret sC6 "t2").2 = Except.ok () ∧
    (setSecret sC6 "t2").1.target.activePassword = "oldpw" ∧
    (setSecret sC6 "t2").1.target.activePassword ≠ pPend.password := by decide

theorem testSecret_preserves (s : RotState) (token : String) :
    (testSecret s token).1.store = s.store ∧ (testSecret s token).1.target = s.target := by
  unfold testSecret getSecretValueByVersion getConnection connectAttempt logOp
  cases h : List.lookup token s.store.versions with
  | none => simp [h]
  | some p =>
    simp only [h]
    by_cases ha : authOk s.target p.host p.username p.password p.port = true <;> simp [ha]

/-- C8: for every state and every number of repeated invocations,
`testSecret` never alters the SecretStore (no version content or label
changes) and never alters the CredentialTarget: it only reads the PENDING
version and attempts a connection. -/
theorem testSecret_never_mutates (s : RotState) (token : String) (n : Nat) :
    (testSecretIter s token n).store = s.store ∧ (testSecretIter s token n).target = s.target := by
  induction n with
  | zero => exact ⟨rfl, rfl⟩
  | succ n ih =>
    have h := testSecret_preserves (testSecretIter s token n) token
    exact ⟨h.1.trans ih.1, h.2.trans ih.2⟩

/-- C9: for every rotation request whose step is not one of the four known
steps, the handler is a no-op: it returns normally and its final state —
including the log of SecretStore / CredentialTarget operations — is
exactly the initial one, so no external operation is performed. -/
theorem handler_unknown_step_noop (event : Event) (s : RotState) (rand : String)
    (h : event.Step ∉ (["createSecret", "setSecret", "testSecret", "finishSecret"] : List String)) :
    handler s event rand = (s, Except.ok ()) := by
  have h1 : event.Step ≠ "createSecret" := fun he => h (by simp [he])
  have h2 : event.Step ≠ "setSecret" := fun he => h (by simp [he])
  have h3 : event.Step ≠ "testSecret" := fun he => h (by simp [he])
  have h4 : event.Step ≠ "finishSecret" := fun he => h (by simp [he])
  simp [handler, h1, h2, h3, h4]

theorem handler_unknown_step_noop_witness :
    handler sA evX "r" = (sA, Except.ok ()) :=
  handler_unknown_step_noop evX sA "r" (by decide)

/-- C10: the handler's behaviour is independent of the SecretId field: two
requests agreeing on step and request token produce identical results —
the same store, the same target and the same log of external operations —
because every store operation uses the statically configured secret name
and the SecretId read from the event is never consulted. -/
theorem handler_ignores_secret_id (e1 e2 : Event) (s : RotState) (rand : String)
    (hstep : e1.Step = e2.Step) (htok : e1.ClientRequestToken = e2.ClientRequestToken) :
    handler s e1 rand = handler s e2 rand := by
  simp only [handler, hstep, htok]

theorem handler_ignores_secret_id_witness :
    handler sA evY1 "r" = handler sA evY2 "r" :=
  handler_ignores_secret_id evY1 evY2 sA "r" rfl rfl

/-- C3 counterexample: the store `sC3` has a CURRENT version (precondition
of the claim), but invoking `createSecret` twice with requestToken "v1" —
the id of the already existing CURRENT version — is a double no-op: no
PENDING version for the token exists after both invocations and the
version content is untouched, so the claim's universally quantified
conclusion (exactly one PENDING version for the token) fails. -/
theorem createSecret_idempotence_cex :
    holders stC3.stages "AWSCURRENT" = ["v1"] ∧
    holders (createSecret (createSecret sC3 "v1" "r1").1 "v1" "r2").1.store.stages "AWSPENDING" = [] ∧
    (createSecret (createSecret sC3 "v1" "r1").1 "v1" "r2").1.store.versions.lookup "v1" = some pCur := by decide

section ListKit

variable {α : Type} {β : Type}

theorem find_eq_filter_head (p : α → Bool) (l : List α) :
    l.find? p = (l.filter p).head? := by
  induction l with
  | nil => rfl
  | cons a t ih =>
    cases h : p a
    · rw [List.find?_cons_of_neg _ (by simp [h]), List.filter_cons_of_neg (by simp [h]), ih]
    · rw [List.find?_cons_of_pos _ h, List.filter_cons_of_pos h]
      rfl

theorem map_eq_singleton {f : α → β} {l : List α} {b : β}
    (h : l.map f = [b]) : ∃ a, l = [a] ∧ f a = b := by
  cases l with
  | nil => simp at h
  | cons x t =>
    cases t with
    | nil =>
      simp at h
      exact ⟨x, rfl, h⟩
    | cons y u => simp at h

theorem lookup_cons (k : String) (a : String × β) (t : List (String × β)) :
    List.lookup k (a :: t) = if k = a.1 then some a.2 else List.lookup k t := by
  by_cases h : k = a.1
  · have hb : (k == a.1) = true := by simp [h]
    simp [List.lookup, hb, h]
  · have hb : (k == a.1) = false := by simp [h]
    simp [List.lookup, hb, h]

theorem lookup_isSome_of_mem_keys {l : List (String × β)} {k : String}
    (h : k ∈ l.map Prod.fst) : (List.lookup k l).isSome := by
  induction l with
  | nil => simp at h
  | cons a t ih =>
    rw [lookup_cons]
    by_cases hk : k = a.1
    · simp [hk]
    · rw [if_neg hk]
      apply ih
      rcases List.mem_map.mp h with ⟨kv, hmem, hkv⟩
      rcases List.mem_cons.mp hmem with h1 | h2
      · exact absurd (h1 ▸ hkv).symm hk
      · exact List.mem_map.mpr ⟨kv, h2, hkv⟩

theorem lookup_mem {l : List (String × β)} {k : String} {b : β}
    (h : List.lookup k l = some b) : (k, b) ∈ l := by
  induction l with
  | nil => simp [List.lookup] at h
  | cons a t ih =>
    rw [lookup_cons] at h
    by_cases hk : k = a.1
    · rw [if_pos hk] at h
      have : (k, b) = a := by
        cases a
        simp at hk h
        simp [hk, h]
      simp [this]
    · rw [if_neg hk] at h
      exact List.mem_cons_of_mem _ (ih h)

theorem lookup_of_mem_nodup {l : List (String × β)} {k : String} {b : β}
    (hnd : (l.map Prod.fst).Nodup) (h : (k, b) ∈ l) : List.lookup k l = some b := by
  induction l with
  | nil => simp at h
  | cons a t ih =>
    rw [lookup_cons]
    rcases List.mem_cons.mp h with he | ht
    · simp [← he]
    · have hk : k ≠ a.1 := by
        intro he2
        have hmem : k ∈ t.map Prod.fst := List.mem_map.mpr ⟨(k, b), ht, rfl⟩
        rw [he2] at hmem
        exact (List.nodup_cons.mp hnd).1 hmem
      rw [if_neg hk]
      exact ih (List.nodup_cons.mp hnd).2 ht

theorem lookup_append_some {l l2 : List (String × β)} {k : String} {b : β}
    (h : List.lookup k l = some b) : List.lookup k (l ++ l2) = some b := by
  induction l with
  | nil => simp [List.lookup] at h
  | cons a t ih =>
    rw [lookup_cons] at h
    rw [List.cons_append, lookup_cons]
    by_cases hk : k = a.1
    · rwa [if_pos hk] at h ⊢
    · rw [if_neg hk] at h ⊢
      exact ih h

theorem lookup_append_none {l l2 : List (String × β)} {k : String}
    (h : List.lookup k l = none) : List.lookup k (l ++ l2) = List.lookup k l2 := by
  induction l with
  | nil => simp
  | cons a t ih =>
    rw [lookup_cons] at h
    rw [List.cons_append, lookup_cons]
    by_cases hk : k = a.1
    · rw [if_pos hk] at h
      simp at h
    · rw [if_neg hk] at h ⊢
      exact ih h

end ListKit

section HoldersKit

theorem holders_append (l1 l2 : List (String × List String)) (lbl : String) :
    holders (l1 ++ l2) lbl = holders l1 lbl ++ holders l2 lbl := by
  simp [holders, List.filter_append]

theorem mem_holders {st : List (String × List String)} {lbl k : String} :
    k ∈ holders st lbl ↔ ∃ ls, (k, ls) ∈ st ∧ lbl ∈ ls := by
  simp only [holders, List.mem_map, List.mem_filter]
  constructor
  · rintro ⟨⟨k2, ls⟩, ⟨hmem, hdec⟩, rfl⟩
    exact ⟨ls, hmem, by simpa using hdec⟩
  · rintro ⟨ls, hmem, hin⟩
    exact ⟨(k, ls), ⟨hmem, by simpa using hin⟩, rfl⟩

theorem holders_map (g : String × List String → String × List String)
    (hfst : ∀ kv, (g kv).1 = kv.1) (st : List (String × List String)) (lbl : String) :
    holders (st.map g) lbl = (st.filter (fun kv => decide (lbl ∈ (g kv).2))).map Prod.fst := by
  induction st with
  | nil => rfl
  | cons a t ih =>
    by_cases h : lbl ∈ (g a).2
    · rw [List.map_cons, holders, List.filter_cons_of_pos (by simpa using h),
        List.filter_cons_of_pos (by simpa using h), List.map_cons, List.map_cons, hfst]
      rw [holders] at ih
      rw [ih]
    · rw [List.map_cons, holders, List.filter_cons_of_neg (by simpa using h),
        List.filter_cons_of_neg (by simpa using h)]
      rw [holders] at ih
      rw [ih]

theorem filter_key_eq_singleton {st : List (String × List String)} {k : String}
    (hnd : (st.map Prod.fst).Nodup) (hk : k ∈ st.map Prod.fst) :
    (st.filter (fun kv => decide (kv.1 = k))).map Prod.fst = [k] := by
  induction st with
  | nil => simp at hk
  | cons a t ih =>
    by_cases he : a.1 = k
    · have hnot : t.filter (fun kv => decide (kv.1 = k)) = [] := by
        apply List.filter_eq_nil_iff.mpr
        intro kv hmem
        simp only [decide_eq_true_eq]
        intro hkv
        have hmem2 : k ∈ t.map Prod.fst := List.mem_map.mpr ⟨kv, hmem, hkv⟩
        rw [← he] at hmem2
        exact (List.nodup_cons.mp hnd).1 hmem2
      rw [List.filter_cons_of_pos (by simpa using he), hnot]
      simp [he]
    · have hk2 : k ∈ t.map Prod.fst := by
        rcases List.mem_map.mp hk with ⟨kv, hmem, hkv⟩
        rcases List.mem_cons.mp hmem with h1 | h2
        · exact absurd (h1 ▸ hkv) he
        · exact List.mem_map.mpr ⟨kv, h2, hkv⟩
      rw [List.filter_cons_of_neg (by simpa using he)]
      exact ih (List.nodup_cons.mp hnd).2 hk2

end HoldersKit

section RestageKit

theorem restage_fst (m f : String) (kv : String × List String) : (restage m f kv).1 = kv.1 := rfl

theorem mem_cur_restage (m f : String) (kv : String × List String) :
    "AWSCURRENT" ∈ (restage m f kv).2 ↔ kv.1 = m := by
  by_cases hm : kv.1 = m <;> by_cases hf : kv.1 = f <;>
    simp [restage, hm, hf, List.mem_filter]

theorem mem_prev_restage (m f : String) (kv : String × List String) :
    "AWSPREVIOUS" ∈ (restage m f kv).2 ↔ kv.1 = f := by
  by_cases hm : kv.1 = m <;> by_cases hf : kv.1 = f <;>
    simp [restage, hm, hf, List.mem_filter]

theorem mem_pend_restage (m f : String) (kv : String × List String) :
    "AWSPENDING" ∈ (restage m f kv).2 ↔ (¬ kv.1 = m ∧ "AWSPENDING" ∈ kv.2) := by
  by_cases hm : kv.1 = m <;> by_cases hf : kv.1 = f <;>
    simp [restage, hm, hf, List.mem_filter, and_comm]

theorem clearPending_fst (kv : String × List String) : (clearPending kv).1 = kv.1 := rfl

theorem pend_not_mem_clearPending (kv : String × List String) :
    "AWSPENDING" ∉ (clearPending kv).2 := by
  simp [clearPending, List.mem_filter]

theorem mem_clearPending {lbl : String} (kv : String × List String) (h : lbl ≠ "AWSPENDING") :
    lbl ∈ (clearPending kv).2 ↔ lbl ∈ kv.2 := by
  simp [clearPending, List.mem_filter, h]

end RestageKit

section FindCurrentKit

theorem headD_eq_cur_iff {ls : List String} (h : ls.length ≤ 1) :
    (ls.headD "" = "AWSCURRENT") ↔ "AWSCURRENT" ∈ ls := by
  match ls with
  | [] => decide
  | [a] => simp [eq_comm]
  | a :: b :: t => simp at h

theorem findCurrent_foldl_keep (stages : List (String × List String)) (acc : Option String)
    (h : ∀ kv ∈ stages, ¬ kv.2.headD "" = "AWSCURRENT") :
    stages.foldl (fun a kv => if kv.2.headD "" = "AWSCURRENT" then some kv.1 else a) acc = acc := by
  induction stages generalizing acc with
  | nil => rfl
  | cons a t ih =>
    rw [List.foldl_cons, if_neg (h a (List.mem_cons_self a t))]
    exact ih acc fun kv hkv => h kv (List.mem_cons_of_mem a hkv)

theorem findCurrentVersion_eq (stages : List (String × List String)) (v : String) (ls : List String)
    (hone : ∀ kv ∈ stages, kv.2.length ≤ 1)
    (hfil : stages.filter (fun kv => decide ("AWSCURRENT" ∈ kv.2)) = [(v, ls)]) :
    findCurrentVersion stages = some v := by
  unfold findCurrentVersion
  induction stages with
  | nil => simp at hfil
  | cons a t ih =>
    by_cases ha : "AWSCURRENT" ∈ a.2
    · rw [List.filter_cons_of_pos (by simpa using ha)] at hfil
      have ha2 : a = (v, ls) := (List.cons_eq_cons.mp hfil).1
      have ht : t.filter (fun kv => decide ("AWSCURRENT" ∈ kv.2)) = [] :=
        (List.cons_eq_cons.mp hfil).2
      rw [List.foldl_cons,
        if_pos ((headD_eq_cur_iff (hone a (List.mem_cons_self a t))).mpr ha)]
      rw [findCurrent_foldl_keep t _ ?_]
      · rw [ha2]
      · intro kv hkv hhead
        have hmem : "AWSCURRENT" ∈ kv.2 :=
          (headD_eq_cur_iff (hone kv (List.mem_cons_of_mem a hkv))).mp hhead
        exact (List.filter_eq_nil_iff.mp ht kv hkv) (by simpa using hmem)
    · rw [List.filter_cons_of_neg (by simpa using ha)] at hfil
      rw [List.foldl_cons,
        if_neg (fun hhead => ha ((headD_eq_cur_iff (hone a (List.mem_cons_self a t))).mp hhead))]
      exact ih (fun kv hkv => hone kv (List.mem_cons_of_mem a hkv)) hfil

theorem holders_singleton_filter {st : List (String × List String)} {lbl v : String}
    (h : holders st lbl = [v]) :
    ∃ ls, st.filter (fun kv => decide (lbl ∈ kv.2)) = [(v, ls)] ∧ lbl ∈ ls ∧ (v, ls) ∈ st := by
  obtain ⟨kv, hfil, hfst⟩ := map_eq_singleton h
  obtain ⟨k2, ls⟩ := kv
  change k2 = v at hfst
  rw [hfst] at hfil
  have hmem : (v, ls) ∈ st.filter (fun kv => decide (lbl ∈ kv.2)) := by
    rw [hfil]; exact List.mem_singleton_self _
  have h2 := List.mem_filter.mp hmem
  exact ⟨ls, hfil, by simpa using h2.2, h2.1⟩

theorem currentVersionId_eq {st : SecretStore} {v : String} {ls : List String}
    (hfil : st.stages.filter (fun kv => decide ("AWSCURRENT" ∈ kv.2)) = [(v, ls)]) :
    currentVersionId st = some v := by
  unfold currentVersionId
  rw [find_eq_filter_head, hfil]
  rfl

end FindCurrentKit

theorem filter_congr_my {α : Type} {p q : α → Bool} {l : List α}
    (h : ∀ a ∈ l, p a = q a) : l.filter p = l.filter q := by
  induction l with
  | nil => rfl
  | cons a t ih =>
    cases hp : p a
    · rw [List.filter_cons_of_neg (by simp [hp]),
        List.filter_cons_of_neg (by simp [← h a (List.mem_cons_self a t), hp])]
      exact ih fun x hx => h x (List.mem_cons_of_mem a hx)
    · rw [List.filter_cons_of_pos hp,
        List.filter_cons_of_pos (by rw [← h a (List.mem_cons_self a t)]; exact hp)]
      rw [ih fun x hx => h x (List.mem_cons_of_mem a hx)]

/-- C2: for every well-formed store state obeying the one-label-per-version
invariant in which one version v1 holds CURRENT and the requestToken
version holds PENDING, finishSecret succeeds, and afterwards exactly one
version holds CURRENT (the requestToken version), the previously CURRENT
version v1 holds PREVIOUS, and no version holds PENDING; moreover at every
observable store state of the run (the label move is one atomic store
operation) exactly one version holds CURRENT. -/
theorem finishSecret_promotes_pending (st : SecretStore) (tgt : CredentialTarget) (ops : List Op)
    (v1 token : String)
    (hwf : st.WF) (hone : OneLabelInv st)
    (hcur : holders st.stages "AWSCURRENT" = [v1])
    (hpend : holders st.stages "AWSPENDING" = [token]) :
    (finishSecret ⟨st, tgt, ops⟩ token).2 = Except.ok () ∧
    holders (finishSecret ⟨st, tgt, ops⟩ token).1.store.stages "AWSCURRENT" = [token] ∧
    holders (finishSecret ⟨st, tgt, ops⟩ token).1.store.stages "AWSPREVIOUS" = [v1] ∧
    holders (finishSecret ⟨st, tgt, ops⟩ token).1.store.stages "AWSPENDING" = [] ∧
    ∀ u ∈ finishObservableStores ⟨st, tgt, ops⟩ token,
      (holders u.stages "AWSCURRENT").length = 1 := by
  obtain ⟨hnd, hkeys⟩ := hwf
  obtain ⟨ls1, hfilC, hmemC, hinC⟩ := holders_singleton_filter hcur
  obtain ⟨lsp, hfilP, hmemP, hinP⟩ := holders_singleton_filter hpend
  have hndstages : (st.stages.map Prod.fst).Nodup := by rw [hkeys]; exact hnd
  have hfind : findCurrentVersion st.stages = some v1 := findCurrentVersion_eq _ _ _ hone hfilC
  have hlookupv1 : List.lookup v1 st.stages = some ls1 := lookup_of_mem_nodup hndstages hinC
  have htokmem : token ∈ st.stages.map Prod.fst := List.mem_map.mpr ⟨(token, lsp), hinP, rfl⟩
  have hv1mem : v1 ∈ st.stages.map Prod.fst := List.mem_map.mpr ⟨(v1, ls1), hinC, rfl⟩
  have htokv : (List.lookup token st.versions).isSome :=
    lookup_isSome_of_mem_keys (hkeys ▸ htokmem)
  obtain ⟨pv, hpv⟩ := Option.isSome_iff_exists.mp htokv
  have hfin1 : (finishSecret ⟨st, tgt, ops⟩ token).2 = Except.ok () := by
    unfold finishSecret describeSecret updateSecretVersionStageCurrent logOp
    dsimp only
    rw [hfind, hpv]
    simp [hlookupv1, hmemC]
  have hfin2 : (finishSecret ⟨st, tgt, ops⟩ token).1.store.stages =
      st.stages.map (restage token v1) := by
    unfold finishSecret describeSecret updateSecretVersionStageCurrent logOp
    dsimp only
    rw [hfind, hpv]
    simp [hlookupv1, hmemC]
  have hmapC : holders (st.stages.map (restage token v1)) "AWSCURRENT" = [token] := by
    rw [holders_map _ (restage_fst token v1),
      filter_congr_my (fun kv _ => decide_eq_decide.mpr (mem_cur_restage token v1 kv))]
    exact filter_key_eq_singleton hndstages htokmem
  have hmapP : holders (st.stages.map (restage token v1)) "AWSPREVIOUS" = [v1] := by
    rw [holders_map _ (restage_fst token v1),
      filter_congr_my (fun kv _ => decide_eq_decide.mpr (mem_prev_restage token v1 kv))]
    exact filter_key_eq_singleton hndstages hv1mem
  have hmapPend : holders (st.stages.map (restage token v1)) "AWSPENDING" = [] := by
    rw [holders_map _ (restage_fst token v1)]
    have hnil : st.stages.filter
        (fun kv => decide ("AWSPENDING" ∈ (restage token v1 kv).2)) = [] := by
      apply List.filter_eq_nil_iff.mpr
      intro kv hkv
      simp only [decide_eq_true_eq]
      rw [mem_pend_restage]
      rintro ⟨hne, hpendmem⟩
      have : kv.1 ∈ holders st.stages "AWSPENDING" :=
        mem_holders.mpr ⟨kv.2, by simpa using hkv, hpendmem⟩
      rw [hpend] at this
      exact hne (by simpa using this)
    rw [hnil]
    rfl
  refine ⟨hfin1, hfin2 ▸ hmapC, hfin2 ▸ hmapP, hfin2 ▸ hmapPend, ?_⟩
  intro u hu
  rcases List.mem_cons.mp hu with h1 | h2
  · have : u = st := h1
    rw [this, hcur]
    rfl
  · have : u = (finishSecret ⟨st, tgt, ops⟩ token).1.store := by
      simpa [finishObservableStores] using h2
    rw [this, hfin2, hmapC]
    rfl

theorem find_congr_my {α : Type} {p q : α → Bool} {l : List α}
    (h : ∀ a ∈ l, p a = q a) : l.find? p = l.find? q := by
  rw [find_eq_filter_head, find_eq_filter_head, filter_congr_my h]

theorem find_append_first {α : Type} {p : α → Bool} {l1 l2 : List α} {a : α}
    (h : l1.find? p = some a) : (l1 ++ l2).find? p = some a := by
  induction l1 with
  | nil => simp [List.find?] at h
  | cons x t ih =>
    cases hx : p x
    · rw [List.find?_cons_of_neg _ (by simp [hx])] at h
      rw [List.cons_append, List.find?_cons_of_neg _ (by simp [hx])]
      exact ih h
    · rw [List.find?_cons_of_pos _ hx] at h
      rw [List.cons_append, List.find?_cons_of_pos _ hx]
      exact h

theorem find_map_my {α : Type} (g : α → α) (p : α → Bool) (l : List α) :
    (l.map g).find? p = ((l.find? fun x => p (g x)).map g) := by
  induction l with
  | nil => rfl
  | cons x t ih =>
    cases hx : p (g x)
    · rw [List.map_cons, List.find?_cons_of_neg _ (by simp [hx]),
        List.find?_cons_of_neg _ (by simp [hx]), ih]
    · rw [List.map_cons, List.find?_cons_of_pos _ hx]
      have hr : List.find? (fun y => p (g y)) (x :: t) = some x := List.find?_cons_of_pos _ hx
      rw [hr]
      rfl

theorem eq_singleton_of_mem_of_length_le {α : Type} {l : List α} {a : α}
    (h : a ∈ l) (hl : l.length ≤ 1) : l = [a] := by
  match l with
  | [] => simp at h
  | [b] => rw [List.mem_singleton.mp h]
  | b :: c :: t => simp at hl

theorem holders_pend_after_put (stages : List (String × List String)) (token : String) :
    holders (stages.map clearPending ++ [(token, ["AWSPENDING"])]) "AWSPENDING" = [token] := by
  rw [holders_append]
  have h1 : holders (stages.map clearPending) "AWSPENDING" = [] := by
    rw [holders_map _ clearPending_fst]
    have : stages.filter (fun kv => decide ("AWSPENDING" ∈ (clearPending kv).2)) = [] := by
      apply List.filter_eq_nil_iff.mpr
      intro kv _
      simp only [decide_eq_true_eq]
      exact pend_not_mem_clearPending kv
    rw [this]
    rfl
  rw [h1]
  simp [holders]

theorem createSecret_absent_run (s : RotState) (token rand v : String) (p0 : Payload)
    (hfound : currentVersionId s.store = some v)
    (hv : List.lookup v s.store.versions = some p0)
    (habs : List.lookup token s.store.versions = none) :
    (createSecret s token rand).1.store =
      { versions := s.store.versions ++ [(token, { p0 with password := rand })],
        stages := s.store.stages.map clearPending ++ [(token, ["AWSPENDING"])] } ∧
    (createSecret s token rand).2 = Except.ok () ∧
    (createSecret s token rand).1.target = s.target := by
  unfold createSecret getSecretValueCurrent describeSecret getSecretValueByVersion
    getRandomPassword putSecretValuePending logOp
  dsimp only
  simp only [hfound, hv, habs]
  simp

theorem createSecret_exists_run (s : RotState) (token rand v : String) (p0 q : Payload)
    (hfound : currentVersionId s.store = some v)
    (hv : List.lookup v s.store.versions = some p0)
    (hex : List.lookup token s.store.versions = some q) :
    (createSecret s token rand).1.store = s.store ∧
    (createSecret s token rand).2 = Except.ok () ∧
    (createSecret s token rand).1.target = s.target := by
  unfold createSecret getSecretValueCurrent describeSecret getSecretValueByVersion
    getRandomPassword putSecretValuePending logOp
  dsimp only
  simp only [hfound, hv, hex]
  simp

theorem currentVersionId_after_put (st : SecretStore) (token v : String) (ls1 : List String) (p1 : Payload)
    (hfil : st.stages.filter (fun kv => decide ("AWSCURRENT" ∈ kv.2)) = [(v, ls1)]) :
    currentVersionId
      { versions := st.versions ++ [(token, p1)],
        stages := st.stages.map clearPending ++ [(token, ["AWSPENDING"])] } = some v := by
  unfold currentVersionId
  have hfindst : st.stages.find? (fun kv => decide ("AWSCURRENT" ∈ kv.2)) = some (v, ls1) := by
    rw [find_eq_filter_head, hfil]
    rfl
  have hcongr : st.stages.find? (fun kv => decide ("AWSCURRENT" ∈ (clearPending kv).2)) =
      st.stages.find? (fun kv => decide ("AWSCURRENT" ∈ kv.2)) :=
    find_congr_my fun kv _ =>
      decide_eq_decide.mpr (mem_clearPending kv (by decide))
  have hmap : (st.stages.map clearPending).find? (fun kv => decide ("AWSCURRENT" ∈ kv.2)) =
      some (clearPending (v, ls1)) := by
    rw [find_map_my clearPending _ st.stages]
    have hfg : st.stages.find? (fun kv => decide ("AWSCURRENT" ∈ (clearPending kv).2)) =
        some (v, ls1) := hcongr.trans hfindst
    rw [hfg]
    rfl
  rw [find_append_first hmap]
  rfl

/-- C3 (amended): with the extra hypothesis that the token version, when it
already exists, holds the PENDING label (and the spec invariant that at
most one version holds PENDING), createSecret is idempotent in the
requestToken: after the first invocation exactly one PENDING version
exists and it is the token version, the token version exists, and a second
invocation with the same token leaves the store completely unchanged, so
the content is identical after both invocations. -/
theorem createSecret_idempotent_amended (st : SecretStore) (tgt : CredentialTarget) (ops : List Op)
    (v token r1 r2 : String) (p0 : Payload)
    (hwf : st.WF)
    (hcur : holders st.stages "AWSCURRENT" = [v])
    (hv : List.lookup v st.versions = some p0)
    (hpl : (holders st.stages "AWSPENDING").length ≤ 1)
    (htok : List.lookup token st.versions = none ∨
      "AWSPENDING" ∈ (List.lookup token st.stages).getD []) :
    (createSecret ⟨st, tgt, ops⟩ token r1).2 = Except.ok () ∧
    holders (createSecret ⟨st, tgt, ops⟩ token r1).1.store.stages "AWSPENDING" = [token] ∧
    (List.lookup token (createSecret ⟨st, tgt, ops⟩ token r1).1.store.versions).isSome = true ∧
    (createSecret (createSecret ⟨st, tgt, ops⟩ token r1).1 token r2).1.store =
      (createSecret ⟨st, tgt, ops⟩ token r1).1.store := by
  obtain ⟨hnd, hkeys⟩ := hwf
  obtain ⟨ls1, hfilC, hmemC, hinC⟩ := holders_singleton_filter hcur
  have hfound : currentVersionId st = some v := currentVersionId_eq hfilC
  rcases htok with habs | hpend
  · obtain ⟨hstore1, hok1, _⟩ :=
      createSecret_absent_run ⟨st, tgt, ops⟩ token r1 v p0 hfound hv habs
    have hlookup1 : List.lookup token (createSecret ⟨st, tgt, ops⟩ token r1).1.store.versions =
        some { p0 with password := r1 } := by
      rw [hstore1]
      rw [lookup_append_none habs, lookup_cons]
      simp
    refine ⟨hok1, ?_, ?_, ?_⟩
    · rw [hstore1]
      exact holders_pend_after_put st.stages token
    · rw [hlookup1]
      rfl
    · have hfound2 : currentVersionId (createSecret ⟨st, tgt, ops⟩ token r1).1.store = some v := by
        rw [hstore1]
        exact currentVersionId_after_put st token v ls1 _ hfilC
      have hv2 : List.lookup v (createSecret ⟨st, tgt, ops⟩ token r1).1.store.versions =
          some p0 := by
        rw [hstore1]
        exact lookup_append_some hv
      exact (createSecret_exists_run (createSecret ⟨st, tgt, ops⟩ token r1).1 token r2 v p0
        { p0 with password := r1 } hfound2 hv2 hlookup1).1
  · cases hlt : List.lookup token st.stages with
    | none =>
      rw [hlt] at hpend
      simp at hpend
    | some lt =>
      rw [hlt] at hpend
      simp only [Option.getD_some] at hpend
      have hmemtok : (token, lt) ∈ st.stages := lookup_mem hlt
      have htokkeys : token ∈ st.stages.map Prod.fst :=
        List.mem_map.mpr ⟨(token, lt), hmemtok, rfl⟩
      have hvtok : (List.lookup token st.versions).isSome :=
        lookup_isSome_of_mem_keys (hkeys ▸ htokkeys)
      obtain ⟨q, hq⟩ := Option.isSome_iff_exists.mp hvtok
      obtain ⟨hstore1, hok1, _⟩ :=
        createSecret_exists_run ⟨st, tgt, ops⟩ token r1 v p0 q hfound hv hq
      have hst : (createSecret ⟨st, tgt, ops⟩ token r1).1.store = st := hstore1
      have hpendall : holders st.stages "AWSPENDING" = [token] :=
        eq_singleton_of_mem_of_length_le (mem_holders.mpr ⟨lt, hmemtok, hpend⟩) hpl
      refine ⟨hok1, ?_, ?_, ?_⟩
      · rw [hst]
        exact hpendall
      · rw [hst, hq]
        rfl
      · have hfound2 : currentVersionId (createSecret ⟨st, tgt, ops⟩ token r1).1.store =
            some v := by rw [hst]; exact hfound
        have hv2 : List.lookup v (createSecret ⟨st, tgt, ops⟩ token r1).1.store.versions =
            some p0 := by rw [hst]; exact hv
        have hq2 : List.lookup token (createSecret ⟨st, tgt, ops⟩ token r1).1.store.versions =
            some q := by rw [hst]; exact hq
        have h2 := (createSecret_exists_run (createSecret ⟨st, tgt, ops⟩ token r1).1 token r2
          v p0 q hfound2 hv2 hq2).1
        rw [h2]

/-- C7: when the store has CURRENT version payload p0 and no version yet
exists for the requestToken, the PENDING version createSecret writes for
the token has exactly the payload p0 with only the password field replaced
by the freshly generated random value (host, username and port are copied
unchanged), and — when the generated value differs from p0.password, a
property of the external random generator — the new password is distinct
from the old one. -/
theorem createSecret_fresh_payload (st : SecretStore) (tgt : CredentialTarget) (ops : List Op)
    (v token rand : String) (p0 : Payload)
    (hcur : holders st.stages "AWSCURRENT" = [v])
    (hv : List.lookup v st.versions = some p0)
    (habs : List.lookup token st.versions = none)
    (hrand : rand ≠ p0.password) :
    List.lookup token (createSecret ⟨st, tgt, ops⟩ token rand).1.store.versions =
      some { p0 with password := rand } ∧
    ({ p0 with password := rand } : Payload).host = p0.host ∧
    ({ p0 with password := rand } : Payload).username = p0.username ∧
    ({ p0 with password := rand } : Payload).port = p0.port ∧
    ({ p0 with password := rand } : Payload).password = rand ∧
    rand ≠ p0.password ∧
    holders (createSecret ⟨st, tgt, ops⟩ token rand).1.store.stages "AWSPENDING" = [token] := by
  obtain ⟨ls1, hfilC, hmemC, hinC⟩ := holders_singleton_filter hcur
  have hfound : currentVersionId st = some v := currentVersionId_eq hfilC
  obtain ⟨hstore1, hok1, _⟩ :=
    createSecret_absent_run ⟨st, tgt, ops⟩ token rand v p0 hfound hv habs
  refine ⟨?_, rfl, rfl, rfl, rfl, hrand, ?_⟩
  · rw [hstore1, lookup_append_none habs, lookup_cons]
    simp
  · rw [hstore1]
    exact holders_pend_after_put st.stages token

theorem finishSecret_promotes_pending_witness :
    (finishSecret ⟨stA, tgt0, []⟩ "t2").2 = Except.ok () ∧
    holders (finishSecret ⟨stA, tgt0, []⟩ "t2").1.store.stages "AWSCURRENT" = ["t2"] ∧
    holders (finishSecret ⟨stA, tgt0, []⟩ "t2").1.store.stages "AWSPREVIOUS" = ["v1"] ∧
    holders (finishSecret ⟨stA, tgt0, []⟩ "t2").1.store.stages "AWSPENDING" = [] ∧
    ∀ u ∈ finishObservableStores ⟨stA, tgt0, []⟩ "t2",
      (holders u.stages "AWSCURRENT").length = 1 :=
  finishSecret_promotes_pending stA tgt0 [] "v1" "t2" (by decide) (by decide) (by decide)
    (by decide)

theorem createSecret_idempotent_amended_witness :
    (createSecret ⟨stC3, tgt0, []⟩ "t2" "r1").2 = Except.ok () ∧
    holders (createSecret ⟨stC3, tgt0, []⟩ "t2" "r1").1.store.stages "AWSPENDING" = ["t2"] ∧
    (List.lookup "t2" (createSecret ⟨stC3, tgt0, []⟩ "t2" "r1").1.store.versions).isSome = true ∧
    (createSecret (createSecret ⟨stC3, tgt0, []⟩ "t2" "r1").1 "t2" "r2").1.store =
      (createSecret ⟨stC3, tgt0, []⟩ "t2" "r1").1.store :=
  createSecret_idempotent_amended stC3 tgt0 [] "v1" "t2" "r1" "r2" pCur
    (by decide) (by decide) (by decide) (by decide) (Or.inl (by decide))

theorem createSecret_fresh_payload_witness :
    List.lookup "t2" (createSecret ⟨stC3, tgt0, []⟩ "t2" "npw").1.store.versions =
      some { pCur with password := "npw" } ∧
    ({ pCur with password := "npw" } : Payload).host = pCur.host ∧
    ({ pCur with password := "npw" } : Payload).username = pCur.username ∧
    ({ pCur with password := "npw" } : Payload).port = pCur.port ∧
    ({ pCur with password := "npw" } : Payload).password = "npw" ∧
    "npw" ≠ pCur.password ∧
    holders (createSecret ⟨stC3, tgt0, []⟩ "t2" "npw").1.store.stages "AWSPENDING" = ["t2"] :=
  createSecret_fresh_payload stC3 tgt0 [] "v1" "t2" "npw" pCur
    (by decide) (by decide) (by decide) (by decide)
